import Mathlib

/-!
Verification development for the `astrbot_plugin_Favour_Ultra` plugin.

The Python sources are shallowly embedded as executable Lean functions:
* a small backtracking regular-expression engine reproducing the semantics of
  the Python `re` module on the two patterns the plugin compiles
  (`favour_pattern` and `relationship_pattern` in `src/main.py` /
  `src/const.py`): leftmost match, lazy (`*?`) and greedy (`*`) repetition,
  ordered alternation, capture groups, `findall` and `sub`;
* the tag parsing and selection logic of `handle_llm_response`;
* the JSON-file store (`FavourFileManager`), the reconciliation/commit step
  (`cleanup_and_update_favour`), the cold-violence gate
  (`inject_favour_prompt`), initial-value resolution (`_get_initial_favour`),
  the SQL store's `update_favour` (`src/storage.py`) and the permission
  resolution chain (`src/permissions.py`, `_get_user_perm_level`).

Text is modelled as `List Char`; machine integers are `Int` (Python ints are
unbounded, so no overflow modelling is needed); time is an abstract `Nat`
count of seconds.
-/

namespace FavourUltra

/-! ## Python string helpers -/

/-- Python `str.strip()` on a list of characters (both ends, whitespace). -/
def pyStrip (l : List Char) : List Char :=
  ((l.dropWhile Char.isWhitespace).reverse.dropWhile Char.isWhitespace).reverse

/-- Python `str.strip()` on a `String`. -/
def pyStripS (s : String) : String :=
  String.mk (pyStrip s.data)

/-- Clamp into the plugin's hard-coded bounds: `max(-100, min(100, v))`
(`src/main.py`, `update_user_favour` and `cleanup_and_update_favour`). -/
def clamp (v : Int) : Int := max (-100) (min 100 v)

/-- Generic clamp `max(lo, min(hi, v))` as used by
`src/storage.py` `FavourDBManager.update_favour` with configured bounds. -/
def clampB (lo hi v : Int) : Int := max lo (min hi v)

/-! ## A backtracking regex engine (Python `re` semantics)

Only the constructs appearing in the plugin's two patterns are modelled:
character classes, concatenation, ordered alternation, lazy star `*?`,
greedy star `*`, and numbered capture groups.  The matcher explores
alternatives in exactly the order the Python engine does (left alternative
first; lazy star tries the empty repetition first, greedy star tries to
consume first), so it finds the same match the Python engine finds. -/

inductive Re where
  | eps : Re
  | cls : (Char → Bool) → Re
  | seq : Re → Re → Re
  | alt : Re → Re → Re
  | starL : Re → Re
  | starG : Re → Re
  | grp : Nat → Re → Re

/-- Capture list: pairs of group index and captured characters. -/
abbrev Caps := List (Nat × List Char)

/-- CPS backtracking matcher.  `reM fuel re s caps k` tries to match `re`
against a prefix of `s`, calling the continuation `k` with the remaining
input and updated captures; the first success (in Python's exploration
order) wins.  `fuel` bounds the recursion depth. -/
def reM : Nat → Re → List Char → Caps →
    (List Char → Caps → Option (List Char × Caps)) → Option (List Char × Caps)
  | 0, _, _, _, _ => none
  | _ + 1, Re.eps, s, caps, k => k s caps
  | _ + 1, Re.cls _, [], _, _ => none
  | _ + 1, Re.cls p, c :: rest, caps, k => if p c then k rest caps else none
  | n + 1, Re.seq a b, s, caps, k =>
      reM n a s caps (fun s2 c2 => reM n b s2 c2 k)
  | n + 1, Re.alt a b, s, caps, k =>
      match reM n a s caps k with
      | some r => some r
      | none => reM n b s caps k
  | n + 1, Re.starL a, s, caps, k =>
      match k s caps with
      | some r => some r
      | none =>
          reM n a s caps (fun s2 c2 =>
            if s2.length == s.length then none
            else reM n (Re.starL a) s2 c2 k)
  | n + 1, Re.starG a, s, caps, k =>
      match reM n a s caps (fun s2 c2 =>
          if s2.length == s.length then none
          else reM n (Re.starG a) s2 c2 k) with
      | some r => some r
      | none => k s caps
  | n + 1, Re.grp i a, s, caps, k =>
      reM n a s caps (fun s2 c2 =>
        k s2 ((i, s.take (s.length - s2.length)) :: c2))

/-- Try to match `re` at the start of `s` (like `re.match` anchored at the
current scan position).  Returns the length of the match and the captures. -/
def reMatchAt (mf : Nat) (re : Re) (s : List Char) : Option (Nat × Caps) :=
  match reM mf re s [] (fun rest caps => some (rest, caps)) with
  | some (rest, caps) => some (s.length - rest.length, caps)
  | none => none

/-- Python `pattern.findall(text)`: scan left to right, at each position try
an anchored match; on success record it and resume after its end (past one
character for an empty match, as CPython does). -/
def reFindAll (mf : Nat) (re : Re) : Nat → List Char → List (List Char × Caps)
  | 0, _ => []
  | fuel + 1, s =>
      match reMatchAt mf re s with
      | none =>
          match s with
          | [] => []
          | _ :: rest => reFindAll mf re fuel rest
      | some (l, caps) =>
          if l = 0 then
            ([], caps) ::
              (match s with
               | [] => []
               | _ :: rest => reFindAll mf re fuel rest)
          else (s.take l, caps) :: reFindAll mf re fuel (s.drop l)

/-- Python `pattern.sub("", text)`: copy characters not covered by a match,
drop matched spans (the replacement is the empty string at every use site in
the plugin). -/
def reSub (mf : Nat) (re : Re) : Nat → List Char → List Char
  | 0, s => s
  | fuel + 1, s =>
      match reMatchAt mf re s with
      | none =>
          match s with
          | [] => []
          | c :: rest => c :: reSub mf re fuel rest
      | some (l, _) =>
          if l = 0 then
            match s with
            | [] => []
            | c :: rest => c :: reSub mf re fuel rest
          else reSub mf re fuel (s.drop l)

/-- Depth budget for the matcher on input `t`; ample for the patterns at
hand (their backtracking depth is linear in the input length). -/
def matchFuel (t : List Char) : Nat := 64 * (t.length + 2)

/-! ## The two compiled patterns -/

/-- Literal single character. -/
def rLit (c : Char) : Re := Re.cls (fun x => x == c)

/-- Case-insensitive literal character (`re.IGNORECASE`). -/
def rLitCI (c : Char) : Re := Re.cls (fun x => x.toLower == c)

/-- Sequence of regexes. -/
def rSeq (l : List Re) : Re := l.foldr Re.seq Re.eps

/-- Literal string. -/
def rStr (s : List Char) : Re := rSeq (s.map rLit)

/-- Case-insensitive literal string. -/
def rStrCI (s : List Char) : Re := rSeq (s.map rLitCI)

/-- Character class listing its members. -/
def rAnyOf (cs : List Char) : Re := Re.cls (fun x => cs.contains x)

/-- ASCII or fullwidth opening bracket. -/
def openBr : Re := rAnyOf ['[', '［']

/-- ASCII or fullwidth closing bracket. -/
def closeBr : Re := rAnyOf [']', '］']

/-- The class complementing all four brackets. -/
def notBr : Re :=
  Re.cls (fun x => !(x == '[' || x == ']' || x == '［' || x == '］'))

/-- With `re.DOTALL`, `.` matches every character. -/
def dotAll : Re := Re.cls (fun _ => true)

/-- Without `re.DOTALL`, `.` matches everything except a newline. -/
def dotNoNl : Re := Re.cls (fun x => !(x == '\n'))

/-- Greedy whitespace repetition for the pattern atom matching any run of
spaces. -/
def wsStarG : Re := Re.starG (Re.cls Char.isWhitespace)

/-- Keyword fragment `a.*?b` of `favour_pattern`. -/
def kwRe (a b : Char) : Re := Re.seq (rLit a) (Re.seq (Re.starL dotAll) (rLit b))

/-- Embedding of the compiled affinity-tag pattern of `src/main.py` line 446
and `src/const.py` `FAVOUR_PATTERN` (flags `DOTALL` and `IGNORECASE`; the
pattern contains no cased ASCII letters, so only `DOTALL` is observable). -/
def favourRe : Re :=
  rSeq [openBr, Re.starL notBr,
        Re.alt (kwRe '好' '感') (Re.alt (kwRe '好' '度') (kwRe '感' '度')),
        Re.starL notBr, closeBr]

/-- Embedding of the compiled relationship-confirmation pattern of
`src/main.py` line 449 and `src/const.py` `RELATIONSHIP_PATTERN`
(`IGNORECASE`; group 1 is the relationship name, group 2 the boolean). -/
def relationshipRe : Re :=
  rSeq [openBr, wsStarG, rStr "用户申请确认关系".data, wsStarG,
        Re.grp 1 (Re.starL dotNoNl), wsStarG, rAnyOf [':', '：'], wsStarG,
        Re.grp 2 (Re.alt (rStrCI "true".data) (rStrCI "false".data)),
        wsStarG, closeBr]

/-- `self.favour_pattern.findall(text)`: list of matched tag strings in
document order. -/
def favourMatches (t : List Char) : List (List Char) :=
  (reFindAll (matchFuel t) favourRe (t.length + 1) t).map Prod.fst

/-- `self.favour_pattern.sub("", text)`. -/
def favourSub (t : List Char) : List Char :=
  reSub (matchFuel t) favourRe (t.length + 1) t

/-- First capture with the given group index (the captures of the winning
match contain exactly one entry per group for these patterns). -/
def capOf (caps : Caps) (i : Nat) : List Char :=
  match caps.find? (fun p => p.fst == i) with
  | some p => p.snd
  | none => []

/-- `self.relationship_pattern.findall(text)`: Python returns a list of
`(group 1, group 2)` tuples — here `(name, boolean-literal)`. -/
def relMatches (t : List Char) : List (List Char × List Char) :=
  (reFindAll (matchFuel t) relationshipRe (t.length + 1) t).map
    (fun p => (capOf p.snd 1, capOf p.snd 2))

/-- `self.relationship_pattern.sub("", text)`. -/
def relSub (t : List Char) : List Char :=
  reSub (matchFuel t) relationshipRe (t.length + 1) t

/-- The tag-stripping applied to each `Plain` component before delivery
(`cleanup_and_update_favour`, lines 860–863):
`relationship_pattern.sub("", favour_pattern.sub("", text)).strip()`. -/
def stripTags (t : List Char) : List Char := pyStrip (relSub (favourSub t))

/-! ## Plugin configuration

Snapshot of the fields `FavourManagerTool.__init__` reads from its config,
restricted to those the embedded logic consumes.  `_validate_config`
guarantees `0 ≤ increase_min ≤ increase_max`, `0 ≤ decrease_min ≤
decrease_max` and `-100 ≤ default_favour, admin_default_favour ≤ 100`
(out-of-range settings are replaced by the defaults); theorems that need
those facts take them as hypotheses. -/

structure Config where
  increase_min : Int
  increase_max : Int
  decrease_min : Int
  decrease_max : Int
  default_favour : Int
  admin_default_favour : Int
  is_global_favour : Bool
  cold_violence_threshold : Int
  cold_violence_duration_minutes : Nat
deriving DecidableEq

/-- The `DEFAULT_CONFIG` values of `src/main.py` / `src/const.py`. -/
def defaultConfig : Config :=
  { increase_min := 1, increase_max := 3, decrease_min := 1, decrease_max := 5,
    default_favour := 0, admin_default_favour := 50, is_global_favour := false,
    cold_violence_threshold := -50, cold_violence_duration_minutes := 60 }

/-! ## Tag parsing (`handle_llm_response`, `src/main.py` lines 717–781) -/

/-- First maximal digit run of the text, if any: the Python code runs
`re.search(r'(\d+)', match_str)` (leftmost match, greedy digits). -/
def firstDigitRun : List Char → Option (List Char)
  | [] => none
  | c :: rest =>
      if c.isDigit then some (c :: rest.takeWhile Char.isDigit)
      else firstDigitRun rest

/-- Decimal value of a digit run (`int(num_match.group(1))`). -/
def digitsToNat (ds : List Char) : Nat :=
  ds.foldl (fun n c => 10 * n + (c.toNat - '0'.toNat)) 0

/-- `val = abs(int(num_match.group(1))) if num_match else 0` — the digits
are unsigned, so `abs` is the identity. -/
def numVal (m : List Char) : Int :=
  match firstDigitRun m with
  | some ds => Int.ofNat (digitsToNat ds)
  | none => 0

/-- Containment test for a regex character class such as `[降低]`
(`re.search(r'[降低]', match_str) is not None`). -/
def containsAny (m : List Char) (ks : List Char) : Bool :=
  m.any (fun c => ks.contains c)

/-- `match_str = match.lower().strip()` (`handle_llm_response` line 736). -/
def normTag (m : List Char) : List Char := pyStrip (m.map Char.toLower)

/-- Per-match parsing of an affinity tag (`handle_llm_response`, lines
736–763): lowercase and strip the match, read the first number (0 when
absent), then decide the direction — decrease if the text contains 降 or 低,
else increase if it contains 上 or 升, else unchanged if it contains 持 or
平; the magnitude is clamped by `max(lo, min(hi, val))` on the configured
range; `none` (Python's `temp_change is None`) marks a directionless match,
which is skipped. -/
def parseFavourTag (cfg : Config) (m : List Char) : Option Int :=
  let ms := normTag m
  let val := numVal ms
  if containsAny ms ['降', '低'] then
    some (-(max cfg.decrease_min (min cfg.decrease_max val)))
  else if containsAny ms ['上', '升'] then
    some (max cfg.increase_min (min cfg.increase_max val))
  else if containsAny ms ['持', '平'] then
    some 0
  else
    none

/-- The `valid_changes` list: parsed values of the pattern matches, in
document order, with directionless matches dropped. -/
def validChanges (cfg : Config) (t : List Char) : List Int :=
  (favourMatches t).filterMap (parseFavourTag cfg)

/-- The parsed update parked under a response's message id:
`{'favour_change': ..., 'relationship_update': ...}`. -/
structure UpdateData where
  favour_change : Int
  relationship_update : Option (List Char)
deriving DecidableEq, Repr

/-- Relationship outcome (`handle_llm_response`, lines 769–773): take the
last `(name, bool)` tuple of `relationship_pattern.findall`; the update is
set only if the boolean literal is `true` (case-insensitively) and the name
is non-empty after stripping. -/
def relationshipUpdateOf (t : List Char) : Option (List Char) :=
  match (relMatches t).getLast? with
  | none => none
  | some (n, b) =>
      if b.map Char.toLower = "true".data ∧ pyStrip n ≠ [] then
        some (pyStrip n)
      else none

/-- Full response parsing: the computed `update_data`, returned as `some`
exactly when the handler parks it in `pending_updates` (a favour tag was
matched or a relationship update was extracted); `favour_change` is the last
entry of `valid_changes` and `0` when there is none. -/
def handleLLMResponse (cfg : Config) (t : List Char) : Option UpdateData :=
  let fc :=
    match (validChanges cfg t).getLast? with
    | some v => v
    | none => 0
  let ru := relationshipUpdateOf t
  if favourMatches t ≠ [] ∨ ru ≠ none then some ⟨fc, ru⟩ else none

/-! ## User-id validation (`is_valid_userid`, `src/main.py` lines 23–31,
`src/utils.py`) -/

/-- Characters allowed in a user id:
`string.ascii_letters + string.digits + "_-:@."`. -/
def allowedUseridChar (c : Char) : Bool :=
  ('a' ≤ c && c ≤ 'z') || ('A' ≤ c && c ≤ 'Z') || c.isDigit ||
    c == '_' || c == '-' || c == ':' || c == '@' || c == '.'

/-- `is_valid_userid`: non-empty after stripping, at most 64 characters,
all characters from the allowed set. -/
def isValidUserid (userid : String) : Bool :=
  let t := pyStrip userid.data
  !t.isEmpty && t.length ≤ 64 && t.all allowedUseridChar

/-! ## The session-level store (`FavourFileManager`, `src/main.py`
lines 224–349)

The JSON file `haogan.json` is modelled as a list of records.  `is_unique`
records whether the serialized entry carries a true `is_unique` key: the
unified record shape of `src/storage.py` (`FavourRecord`, and its importer
`migrate_from_json`, which reads `bool(item.get("is_unique", False))`)
defaults it to `false` when absent.  `read_favour` rebuilds each entry from
exactly the four keys `userid`, `favour`, `session_id`, `relationship`
(lines 244–249), so every record that passes through a read has no
`is_unique` key — i.e. `is_unique = false`. -/

structure FavourItem where
  userid : String
  favour : Int
  session_id : Option String
  relationship : List Char
  is_unique : Bool
deriving DecidableEq, Repr

/-- `read_favour`: each stored entry is rebuilt from the four known keys;
any `is_unique` key is dropped, so it deserializes as `false` downstream. -/
def readFavour (st : List FavourItem) : List FavourItem :=
  st.map (fun it => { it with is_unique := false })

/-- Record predicate used by `get_user_favour`, `update_user_favour` and
`delete_user_favour`: same user id and same session id. -/
def matchesKey (u : String) (s : Option String) (it : FavourItem) : Bool :=
  it.userid == u && it.session_id == s

/-- `get_user_favour(userid, session_id)`: first matching record of the
(read, hence normalized) data, as a copy. -/
def getUserFavour (st : List FavourItem) (u : String) (s : Option String) :
    Option FavourItem :=
  (readFavour st).find? (matchesKey u s)

/-- Raw first matching record of a store (for stating what is on disk). -/
def findRecord (st : List FavourItem) (u : String) (s : Option String) :
    Option FavourItem :=
  st.find? (matchesKey u s)

/-- Mutation of the first matching record (`update_user_favour`'s
`for item in data: ... break` loop): clamp and store the favour if one is
supplied, overwrite the relationship if one is supplied.  Returns `none`
when no record matches (`found = False`). -/
def updateItems (u : String) (s : Option String) (f : Option Int)
    (r : Option (List Char)) : List FavourItem → Option (List FavourItem)
  | [] => none
  | it :: rest =>
      if matchesKey u s it then
        some ({ it with
                favour := match f with | some v => clamp v | none => it.favour,
                relationship := match r with | some x => x | none => it.relationship } :: rest)
      else
        match updateItems u s f r rest with
        | some rest2 => some (it :: rest2)
        | none => none

/-- `update_user_favour(userid, session_id, favour, relationship)`: strip
and validate the user id (no write on failure), read the data, update the
first matching record or append a fresh one (favour clamped, defaulting to
0; relationship defaulting to empty; no `is_unique` key), and write back. -/
def updateUserFavour (st : List FavourItem) (userid : String)
    (s : Option String) (f : Option Int) (r : Option (List Char)) :
    List FavourItem :=
  let u := pyStripS userid
  if isValidUserid u then
    let data := readFavour st
    match updateItems u s f r data with
    | some data2 => data2
    | none =>
        data ++ [{ userid := u,
                   favour := match f with | some v => clamp v | none => 0,
                   session_id := s,
                   relationship := match r with | some x => x | none => [],
                   is_unique := false }]
  else st

/-- `delete_user_favour`: drop every matching record (no write when the
user id is invalid). -/
def deleteUserFavour (st : List FavourItem) (userid : String)
    (s : Option String) : List FavourItem :=
  let u := pyStripS userid
  if isValidUserid u then
    (readFavour st).filter (fun it => !(matchesKey u s it))
  else st

/-- `clear_conversation_favour`: keep only the records of other sessions. -/
def clearSessionFavour (st : List FavourItem) (s : Option String) :
    List FavourItem :=
  (readFavour st).filter (fun it => !(it.session_id == s))

/-- `clear_all_favour`: write the empty list. -/
def clearAllFavour (_st : List FavourItem) : List FavourItem := []

/-- `GlobalFavourFileManager.update_global_favour`: global-store writes are
clamped into −100..100 (line 219); the map is userid → favour. -/
def updateGlobalFavour (gm : List (String × Int)) (userid : String)
    (favour : Int) : List (String × Int) :=
  if isValidUserid userid then
    (userid, clamp favour) :: gm.filter (fun p => !(p.fst == userid))
  else gm

/-! ## Pending updates and cold violence (`FavourManagerTool`) -/

/-- First-entry lookup in an association list (Python dict read). -/
def lookupA {α : Type} (l : List (String × α)) (k : String) : Option α :=
  match l.find? (fun p => p.fst == k) with
  | some p => some p.snd
  | none => none

/-- Remove a key from an association list (Python dict `pop` / `del`). -/
def eraseA {α : Type} (l : List (String × α)) (k : String) :
    List (String × α) :=
  l.filter (fun p => !(p.fst == k))

/-- Insert/overwrite a key (Python dict assignment). -/
def insertA {α : Type} (l : List (String × α)) (k : String) (v : α) :
    List (String × α) :=
  (k, v) :: eraseA l k

/-- The plugin's mutable state: the session store (`haogan.json`), the
in-memory `pending_updates` dict keyed by message id, and the in-memory
`cold_violence_users` dict mapping a user id to the expiry timestamp
(seconds). -/
structure PluginState where
  store : List FavourItem
  pending : List (String × UpdateData)
  coldUsers : List (String × Nat)
deriving DecidableEq, Repr

/-- `handle_llm_response` as a state step: parse the response text and park
the update under the message id (`self.pending_updates[message_id] =
update_data`), when there is one. -/
def parkUpdate (cfg : Config) (st : PluginState) (msgId : String)
    (t : List Char) : PluginState :=
  match handleLLMResponse cfg t with
  | some ud => { st with pending := insertA st.pending msgId ud }
  | none => st

/-- The commit step `cleanup_and_update_favour` (`src/main.py` lines
783–853), for a delivery that carries a result chain and a message id:
pop the parked update (`pending_updates.pop(message_id, None)`); when
present and non-trivial, reconcile it against the current record (or, when
there is none, against `initial_favour = await self._get_initial_favour(...)`,
passed here as the argument `initialFavour`), write through
`update_user_favour` only when something changed, and arm the cold-violence
timer when the new value is at or below the threshold and the change was
negative (`expires_at = datetime.now() + timedelta(minutes=duration)`;
`now` and the expiry are in seconds). -/
def cleanupAndUpdateFavour (cfg : Config) (now : Nat) (st : PluginState)
    (msgId sender : String) (session : Option String) (initialFavour : Int) :
    PluginState :=
  match lookupA st.pending msgId with
  | none => st
  | some ud =>
      let st1 : PluginState := { st with pending := eraseA st.pending msgId }
      let changeN := ud.favour_change
      if changeN = 0 ∧ ud.relationship_update = none then st1
      else
        match getUserFavour st1.store sender session with
        | some cur =>
            let oldFavour := cur.favour
            let newFavour := clamp (oldFavour + changeN)
            let oldRel := cur.relationship
            let final0 :=
              match ud.relationship_update with
              | some r => r
              | none => oldRel
            let finalRel := if newFavour < 0 ∧ oldRel ≠ [] then [] else final0
            let favourChanged := newFavour ≠ oldFavour
            let relChanged := finalRel ≠ oldRel
            let store2 :=
              if favourChanged ∨ relChanged then
                updateUserFavour st1.store sender session
                  (if favourChanged then some newFavour else none)
                  (if relChanged then some finalRel else none)
              else st1.store
            let cold2 :=
              if newFavour ≤ cfg.cold_violence_threshold ∧ changeN < 0 then
                insertA st1.coldUsers sender
                  (now + 60 * cfg.cold_violence_duration_minutes)
              else st1.coldUsers
            { store := store2, pending := st1.pending, coldUsers := cold2 }
        | none =>
            let newFavour := clamp (initialFavour + changeN)
            let final0 :=
              match ud.relationship_update with
              | some r => r
              | none => []
            let finalRel := if newFavour < 0 ∧ final0 ≠ [] then [] else final0
            let store2 :=
              updateUserFavour st1.store sender session (some newFavour)
                (some finalRel)
            let cold2 :=
              if newFavour ≤ cfg.cold_violence_threshold ∧ changeN < 0 then
                insertA st1.coldUsers sender
                  (now + 60 * cfg.cold_violence_duration_minutes)
              else st1.coldUsers
            { store := store2, pending := st1.pending, coldUsers := cold2 }

/-- Outcome of the request hook: either the request is intercepted with the
canned cold-violence reply (carrying the remaining seconds) and never
reaches the model call, or processing proceeds to prompt injection and the
model call. -/
inductive InjectOutcome where
  | intercepted : Nat → InjectOutcome
  | proceed : InjectOutcome
deriving DecidableEq, Repr

/-- The gate at the top of `inject_favour_prompt` (`src/main.py` lines
600–617): a user present in `cold_violence_users` with an unexpired entry is
answered with the canned reply and the event is stopped; an expired entry is
deleted lazily and processing continues. -/
def injectFavourPrompt (now : Nat) (st : PluginState) (sender : String) :
    PluginState × InjectOutcome :=
  match lookupA st.coldUsers sender with
  | some expiry =>
      if now < expiry then (st, InjectOutcome.intercepted (expiry - now))
      else ({ st with coldUsers := eraseA st.coldUsers sender },
            InjectOutcome.proceed)
  | none => (st, InjectOutcome.proceed)

/-- `_format_timedelta`: minutes/seconds rendering of a remaining duration
given in seconds. -/
def formatTimedelta (totalSeconds : Nat) : String :=
  let minutes := totalSeconds / 60
  let seconds := totalSeconds % 60
  if minutes > 0 ∧ seconds > 0 then
    toString minutes ++ "分" ++ toString seconds ++ "秒"
  else if minutes > 0 then toString minutes ++ "分"
  else toString seconds ++ "秒"

/-! ## Permission resolution (`src/permissions.py`; duplicated verbatim in
`src/main.py` lines 72–167) -/

/-- `PermLevel.UNKNOWN`. -/
def permUNKNOWN : Int := -1
/-- `PermLevel.MEMBER`. -/
def permMEMBER : Int := 0
/-- `PermLevel.HIGH`. -/
def permHIGH : Int := 1
/-- `PermLevel.ADMIN`. -/
def permADMIN : Int := 2
/-- `PermLevel.OWNER`. -/
def permOWNER : Int := 3
/-- `PermLevel.SUPERUSER`. -/
def permSUPERUSER : Int := 4

/-- Python `int(s)` on an already-stripped string: an optional sign followed
by at least one digit.  (Python also accepts underscores between digits and
Unicode digits; the ids handled here are ASCII.) -/
def pyInt : List Char → Option Int
  | [] => none
  | '-' :: ds =>
      if ds ≠ [] ∧ ds.all Char.isDigit then some (-(Int.ofNat (digitsToNat ds)))
      else none
  | '+' :: ds =>
      if ds ≠ [] ∧ ds.all Char.isDigit then some (Int.ofNat (digitsToNat ds))
      else none
  | ds =>
      if ds.all Char.isDigit then some (Int.ofNat (digitsToNat ds))
      else none

/-- The message event, as far as the permission chain consumes it:
the sender id, the (possibly missing) group id, whether the event comes
from the aiocqhttp platform (the `isinstance` test in
`_get_user_perm_level`), and the result of
`event.bot.get_group_member_info` — `none` models the lookup raising. -/
structure MsgEvent where
  sender_id : String
  group_id : Option String
  isAiocqhttp : Bool
  memberInfo : Option (String × Int)
deriving DecidableEq, Repr

/-- `PermissionManager.get_perm_level` (`src/permissions.py` lines 49–100):
empty/blank group id or user id → UNKNOWN; non-integer ids → UNKNOWN; zero
ids → UNKNOWN; a sender in the superusers list → SUPERUSER; failing member
lookup → UNKNOWN; otherwise map the role (owner/admin/member with a level
threshold) to a level, any other role → UNKNOWN. -/
def getPermLevel (superusers : List String) (levelThreshold : Int)
    (ev : MsgEvent) (userId : String) : Int :=
  match ev.group_id with
  | none => permUNKNOWN
  | some g =>
      if g = "" ∨ pyStripS g = "" then permUNKNOWN
      else if userId = "" ∨ pyStripS userId = "" then permUNKNOWN
      else
        match pyInt (pyStrip g.data), pyInt (pyStrip userId.data) with
        | some gi, some ui =>
            if gi = 0 ∨ ui = 0 then permUNKNOWN
            else if superusers.contains (toString ui) then permSUPERUSER
            else
              match ev.memberInfo with
              | none => permUNKNOWN
              | some (role, level) =>
                  if role = "owner" then permOWNER
                  else if role = "admin" then permADMIN
                  else if role = "member" then
                    if level ≥ levelThreshold then permHIGH else permMEMBER
                  else permUNKNOWN
        | _, _ => permUNKNOWN

/-- `_is_admin`: the sender is listed in the bot config's `admins_id`. -/
def isAdmin (adminsId : List String) (ev : MsgEvent) : Bool :=
  adminsId.contains ev.sender_id

/-- `_get_user_perm_level` (`src/main.py` lines 545–551): bot admins are
SUPERUSER before anything else; non-aiocqhttp events are UNKNOWN; otherwise
defer to `get_perm_level` (whose superusers list is wired to the same
`admins_id` in `__init__`). -/
def getUserPermLevel (adminsId : List String) (levelThreshold : Int)
    (ev : MsgEvent) : Int :=
  if isAdmin adminsId ev then permSUPERUSER
  else if !ev.isAiocqhttp then permUNKNOWN
  else getPermLevel adminsId levelThreshold ev ev.sender_id

/-- `_check_permission(event, required_level)`. -/
def checkPermission (adminsId : List String) (levelThreshold : Int)
    (ev : MsgEvent) (requiredLevel : Int) : Bool :=
  getUserPermLevel adminsId levelThreshold ev ≥ requiredLevel

/-! ## Initial-value resolution (`_get_initial_favour`, `src/main.py`
lines 571–587) -/

/-- `_get_initial_favour`: in per-conversation mode, a global-store value
for the user is returned as stored (note: with no further clamping);
otherwise owners-and-above and envoys start from `admin_default_favour`,
everyone else from `default_favour`, clamped into −100..100. -/
def getInitialFavour (cfg : Config) (globalMap : List (String × Int))
    (userId : String) (userLevel : Int) (isEnvoy : Bool) : Int :=
  match (if !cfg.is_global_favour then lookupA globalMap userId else none) with
  | some globalFavour => globalFavour
  | none =>
      let base :=
        if userLevel ≥ permOWNER ∨ isEnvoy then cfg.admin_default_favour
        else cfg.default_favour
      clamp base

/-- The `修改好感度` admin command (`modify_favour`, `src/main.py` lines
971–1003), after target resolution: refuse below ADMIN permission, reject a
non-integer or out-of-range value, otherwise write the supplied value
through `update_user_favour` (creating the record if absent).  Returns the
store unchanged on refusal. -/
def modifyFavourCommand (adminsId : List String) (levelThreshold : Int)
    (ev : MsgEvent) (st : List FavourItem) (targetUid : String)
    (session : Option String) (value : Int) : List FavourItem :=
  if !checkPermission adminsId levelThreshold ev permADMIN then st
  else if value < -100 ∨ 100 < value then st
  else updateUserFavour st targetUid session (some value) none

/-! ## The SQL store (`FavourDBManager.update_favour`, `src/storage.py`
lines 128–171) -/

/-- A row of the `favour_records` table (`FavourRecord`), minus the
`id`/`updated_at` bookkeeping columns, which no claim concerns. -/
structure DBRecord where
  user_id : String
  session_id : String
  favour : Int
  relationship : List Char
  is_unique : Bool
deriving DecidableEq, Repr

/-- First row matching the select of `update_favour`. -/
def dbFind (recs : List DBRecord) (u sid : String) : Option DBRecord :=
  recs.find? (fun r => r.user_id == u && r.session_id == sid)

/-- Mutation of the first matching row. -/
def dbUpdateFirst (lo hi : Int) (u sid : String) (f : Option Int)
    (r : Option (List Char)) (iu : Option Bool) :
    List DBRecord → List DBRecord
  | [] => []
  | rec :: rest =>
      if rec.user_id == u && rec.session_id == sid then
        { rec with
          favour := match f with | some v => clampB lo hi v | none => rec.favour,
          relationship := match r with | some x => x | none => rec.relationship,
          is_unique := match iu with | some b => b | none => rec.is_unique } :: rest
      else rec :: dbUpdateFirst lo hi u sid f r iu rest

/-- `FavourDBManager.update_favour`: invalid user id → no write; missing
session id maps to the `"global"` scope; a missing row is inserted with the
clamped favour (0 when none is supplied) and the given relationship and
uniqueness defaults; an existing row has exactly the supplied fields
updated, the favour clamped into `[min_val, max_val]`. -/
def dbUpdateFavour (lo hi : Int) (recs : List DBRecord) (userId : String)
    (session : Option String) (f : Option Int) (r : Option (List Char))
    (iu : Option Bool) : List DBRecord :=
  if !isValidUserid userId then recs
  else
    let sid := match session with | some s => if s = "" then "global" else s | none => "global"
    match dbFind recs userId sid with
    | none =>
        recs ++ [{ user_id := userId, session_id := sid,
                   favour := match f with | some v => clampB lo hi v | none => 0,
                   relationship := match r with | some x => x | none => [],
                   is_unique := match iu with | some b => b | none => false }]
    | some _ => dbUpdateFirst lo hi userId sid f r iu recs

/-! ## Operation sequences over the session store

Every path of `src/main.py` that writes `haogan.json` goes through one of
the `FavourFileManager` mutators or the commit step; a sequence of such
operations drives the store-invariant claims. -/

inductive StoreOp where
  | update : String → Option String → Option Int → Option (List Char) → StoreOp
  | delete : String → Option String → StoreOp
  | clearSession : Option String → StoreOp
  | clearAll : StoreOp
  | commit : Nat → String → String → Option String → Int → StoreOp

/-- Apply one operation to the plugin state (store mutators touch only the
store; `commit now msgId sender session initialFavour` is the delivery-time
reconciliation step). -/
def applyStoreOp (cfg : Config) (st : PluginState) : StoreOp → PluginState
  | StoreOp.update u s f r =>
      { st with store := updateUserFavour st.store u s f r }
  | StoreOp.delete u s => { st with store := deleteUserFavour st.store u s }
  | StoreOp.clearSession s => { st with store := clearSessionFavour st.store s }
  | StoreOp.clearAll => { st with store := clearAllFavour st.store }
  | StoreOp.commit now msgId sender session initialFavour =>
      cleanupAndUpdateFavour cfg now st msgId sender session initialFavour

/-- Apply a sequence of operations, oldest first. -/
def applyStoreOps (cfg : Config) (st : PluginState) : List StoreOp → PluginState
  | [] => st
  | op :: ops => applyStoreOps cfg (applyStoreOp cfg st op) ops

/-- The stored-value range invariant of claim C3, as an executable check:
every record's favour lies in −100..100. -/
def favourInRange (st : List FavourItem) : Bool :=
  st.all (fun it => decide (-100 ≤ it.favour) && decide (it.favour ≤ 100))

/-- Range invariant for the SQL store under configured bounds. -/
def dbInRange (lo hi : Int) (recs : List DBRecord) : Bool :=
  recs.all (fun r => decide (lo ≤ r.favour) && decide (r.favour ≤ hi))

/-- Sequences of `update_favour` calls against the SQL store. -/
def dbApplyOps (lo hi : Int) (recs : List DBRecord) :
    List (String × Option String × Option Int × Option (List Char) × Option Bool) →
    List DBRecord
  | [] => recs
  | (u, s, f, r, iu) :: ops =>
      dbApplyOps lo hi (dbUpdateFavour lo hi recs u s f r iu) ops

/-! ## Helper lemmas -/

/-- Looking up a key just erased yields nothing. -/
theorem lookupA_eraseA {α : Type} (l : List (String × α)) (k : String) :
    lookupA (eraseA l k) k = none := by
  induction l with
  | nil => rfl
  | cons hd tl ih =>
      by_cases h : hd.fst == k
      · simpa [lookupA, eraseA, h] using ih
      · simpa [lookupA, eraseA, List.find?, h] using ih

/-- Erasing an absent key is the identity. -/
theorem eraseA_of_lookupA_none {α : Type} (l : List (String × α)) (k : String)
    (h : lookupA l k = none) : eraseA l k = l := by
  induction l with
  | nil => rfl
  | cons hd tl ih =>
      by_cases hh : hd.fst == k
      · simp [lookupA, List.find?, hh] at h
      · have h2 : lookupA tl k = none := by
          simpa [lookupA, List.find?, hh] using h
        have hstep : eraseA (hd :: tl) k = hd :: eraseA tl k := by
          simp [eraseA, List.filter_cons, hh]
        rw [hstep, ih h2]

/-- Looking up the key just inserted yields the inserted value. -/
theorem lookupA_insertA_self {α : Type} (l : List (String × α)) (k : String)
    (v : α) : lookupA (insertA l k v) k = some v := by
  simp [lookupA, insertA, List.find?]

/-- `clamp` lands in the hard-coded bounds. -/
theorem clamp_mem (v : Int) : -100 ≤ clamp v ∧ clamp v ≤ 100 :=
  ⟨le_max_left _ _, max_le (by norm_num) (min_le_left _ _)⟩

/-- `clampB lo hi` lands in `[lo, hi]` when the bounds are ordered. -/
theorem clampB_mem (lo hi v : Int) (h : lo ≤ hi) :
    lo ≤ clampB lo hi v ∧ clampB lo hi v ≤ hi :=
  ⟨le_max_left _ _, max_le h (min_le_left _ _)⟩

/-- The commit step always leaves the pending map with the message id
removed (and touches no other pending entry). -/
theorem cleanup_pending (cfg : Config) (now : Nat) (st : PluginState)
    (msgId sender : String) (session : Option String) (init : Int) :
    (cleanupAndUpdateFavour cfg now st msgId sender session init).pending =
      eraseA st.pending msgId := by
  unfold cleanupAndUpdateFavour
  cases hl : lookupA st.pending msgId with
  | none => simp [eraseA_of_lookupA_none _ _ hl]
  | some ud =>
      dsimp only
      split
      · rfl
      · cases getUserFavour st.store sender session <;> rfl

/-! ## Claim theorems -/

/-- C7: the parked pending update is taken at most once: popping a message
id twice yields the entry at most once and `none` the second time; a
finalize call that pops nothing is a no-op on the whole plugin state (so a
parked delta is never applied to the store twice — re-running the commit
step for the same message id changes nothing). -/
theorem c7_at_most_once_commit :
    (∀ (p : List (String × UpdateData)) (msgId : String),
        lookupA (eraseA p msgId) msgId = none) ∧
    (∀ (cfg : Config) (now : Nat) (st : PluginState) (msgId sender : String)
        (session : Option String) (init : Int),
        lookupA st.pending msgId = none →
        cleanupAndUpdateFavour cfg now st msgId sender session init = st) ∧
    (∀ (cfg : Config) (now : Nat) (st : PluginState) (msgId sender : String)
        (session : Option String) (init : Int),
        cleanupAndUpdateFavour cfg now
          (cleanupAndUpdateFavour cfg now st msgId sender session init)
          msgId sender session init =
        cleanupAndUpdateFavour cfg now st msgId sender session init) := by
  have hnone : ∀ (cfg : Config) (now : Nat) (st : PluginState)
      (msgId sender : String) (session : Option String) (init : Int),
      lookupA st.pending msgId = none →
      cleanupAndUpdateFavour cfg now st msgId sender session init = st := by
    intro cfg now st msgId sender session init h
    unfold cleanupAndUpdateFavour
    rw [h]
  refine ⟨fun p msgId => lookupA_eraseA p msgId, hnone, ?_⟩
  intro cfg now st msgId sender session init
  apply hnone
  rw [cleanup_pending]
  exact lookupA_eraseA _ _

/-- C7 witness: a concrete pop-twice run — the first pop returns the parked
entry, the second returns `none`, and re-running the commit step on the
resulting state is the identity. -/
theorem c7_witness :
    lookupA (eraseA [("42", UpdateData.mk 2 none)] "42") "42" = none ∧
    cleanupAndUpdateFavour defaultConfig 0
      (PluginState.mk [] [] []) "42" "10001" (some "s") 0 =
      PluginState.mk [] [] [] ∧
    cleanupAndUpdateFavour defaultConfig 0
      (cleanupAndUpdateFavour defaultConfig 0
        (PluginState.mk [] [("42", UpdateData.mk 2 none)] []) "42" "10001"
        (some "s") 0) "42" "10001" (some "s") 0 =
      cleanupAndUpdateFavour defaultConfig 0
        (PluginState.mk [] [("42", UpdateData.mk 2 none)] []) "42" "10001"
        (some "s") 0 :=
  ⟨c7_at_most_once_commit.1 [("42", UpdateData.mk 2 none)] "42",
   c7_at_most_once_commit.2.1 defaultConfig 0 (PluginState.mk [] [] []) "42"
     "10001" (some "s") 0 (by decide),
   c7_at_most_once_commit.2.2 defaultConfig 0
     (PluginState.mk [] [("42", UpdateData.mk 2 none)] []) "42" "10001"
     (some "s") 0⟩

/-- C10: on an event with no usable group id (e.g. a private chat),
permission resolution is SUPERUSER exactly for senders on the bot admin
list — that check comes first — and UNKNOWN (−1) for everyone else, so
every permission-gated command (floors ADMIN, OWNER and SUPERUSER are the
ones used) fails its `_check_permission` test and is refused. -/
theorem c10_no_group_permissions (adminsId : List String)
    (levelThreshold : Int) (ev : MsgEvent)
    (hg : ev.group_id = none ∨
          ∃ g, ev.group_id = some g ∧ pyStripS g = "") :
    (getUserPermLevel adminsId levelThreshold ev =
      if isAdmin adminsId ev then permSUPERUSER else permUNKNOWN) ∧
    (isAdmin adminsId ev = false →
      checkPermission adminsId levelThreshold ev permADMIN = false ∧
      checkPermission adminsId levelThreshold ev permOWNER = false ∧
      checkPermission adminsId levelThreshold ev permSUPERUSER = false) := by
  have hlevel : getUserPermLevel adminsId levelThreshold ev =
      if isAdmin adminsId ev then permSUPERUSER else permUNKNOWN := by
    unfold getUserPermLevel
    by_cases ha : isAdmin adminsId ev
    · simp [ha]
    · simp only [ha, Bool.false_eq_true, if_false, if_neg]
      cases hb : ev.isAiocqhttp
      · simp
      · simp only [Bool.not_true, Bool.false_eq_true, if_false]
        unfold getPermLevel
        rcases hg with hnone | ⟨g, hsome, hblank⟩
        · rw [hnone]
        · rw [hsome]
          by_cases hge : g = ""
          · simp [hge]
          · simp [hge, hblank]
  refine ⟨hlevel, fun hnadm => ?_⟩
  unfold checkPermission
  rw [hlevel, hnadm]
  refine ⟨?_, ?_, ?_⟩ <;> simp [permUNKNOWN, permADMIN, permOWNER, permSUPERUSER]

/-- C10 witness: a private-chat event (no group id) from a sender not on
the admin list resolves to UNKNOWN and every gated command floor refuses. -/
theorem c10_witness :
    getUserPermLevel ["9"] 50
      (MsgEvent.mk "10001" none true (some ("member", 60))) =
      (if isAdmin ["9"] (MsgEvent.mk "10001" none true (some ("member", 60)))
       then permSUPERUSER else permUNKNOWN) ∧
    checkPermission ["9"] 50
      (MsgEvent.mk "10001" none true (some ("member", 60))) permADMIN = false :=
  ⟨(c10_no_group_permissions ["9"] 50 _ (Or.inl rfl)).1,
   ((c10_no_group_permissions ["9"] 50 _ (Or.inl rfl)).2 (by decide)).1⟩

/-- C4: under the validated configuration (`_validate_config` guarantees
`0 ≤ increase_min ≤ increase_max` and `0 ≤ decrease_min ≤ decrease_max`),
the parsed magnitude of a decrease tag is clamped into
`[decrease_min, decrease_max]` and that of an increase tag into
`[increase_min, increase_max]` before the sign is applied, and an
"unchanged" tag parses to delta 0 no matter what number appears inside. -/
theorem c4_magnitude_clamping (cfg : Config) (m : List Char)
    (hi1 : 0 ≤ cfg.increase_min) (hi2 : cfg.increase_min ≤ cfg.increase_max)
    (hd1 : 0 ≤ cfg.decrease_min) (hd2 : cfg.decrease_min ≤ cfg.decrease_max) :
    (containsAny (normTag m) ['降', '低'] = true →
      ∃ mag : Int, parseFavourTag cfg m = some (-mag) ∧
        mag = max cfg.decrease_min (min cfg.decrease_max (numVal (normTag m))) ∧
        0 ≤ mag ∧ cfg.decrease_min ≤ mag ∧ mag ≤ cfg.decrease_max) ∧
    (containsAny (normTag m) ['降', '低'] = false →
      containsAny (normTag m) ['上', '升'] = true →
      ∃ mag : Int, parseFavourTag cfg m = some mag ∧
        mag = max cfg.increase_min (min cfg.increase_max (numVal (normTag m))) ∧
        0 ≤ mag ∧ cfg.increase_min ≤ mag ∧ mag ≤ cfg.increase_max) ∧
    (containsAny (normTag m) ['降', '低'] = false →
      containsAny (normTag m) ['上', '升'] = false →
      containsAny (normTag m) ['持', '平'] = true →
      parseFavourTag cfg m = some 0) := by
  refine ⟨fun hdec => ?_, fun hdec hinc => ?_, fun hdec hinc hun => ?_⟩
  · refine ⟨max cfg.decrease_min (min cfg.decrease_max (numVal (normTag m))),
      ?_, rfl, le_trans hd1 (le_max_left _ _), le_max_left _ _,
      max_le hd2 (min_le_left _ _)⟩
    simp [parseFavourTag, hdec]
  · refine ⟨max cfg.increase_min (min cfg.increase_max (numVal (normTag m))),
      ?_, rfl, le_trans hi1 (le_max_left _ _), le_max_left _ _,
      max_le hi2 (min_le_left _ _)⟩
    simp [parseFavourTag, hdec, hinc]
  · simp [parseFavourTag, hdec, hinc, hun]

/-- C4 witness: with the default configuration, `[好感度 上升：7]` clamps
7 down into `[1, 3]` giving +3; `[好感度 降低：100]` clamps into `[1, 5]`
giving −5; `[好感度 持平 9]` yields 0 despite the 9. -/
theorem c4_witness :
    (∃ mag : Int, parseFavourTag defaultConfig "[好感度 上升：7]".data = some mag ∧
      mag = max defaultConfig.increase_min
        (min defaultConfig.increase_max (numVal (normTag "[好感度 上升：7]".data))) ∧
      0 ≤ mag ∧ defaultConfig.increase_min ≤ mag ∧
      mag ≤ defaultConfig.increase_max) ∧
    parseFavourTag defaultConfig "[好感度 上升：7]".data = some 3 ∧
    parseFavourTag defaultConfig "[好感度 降低：100]".data = some (-5) ∧
    parseFavourTag defaultConfig "[好感度 持平 9]".data = some 0 :=
  ⟨(c4_magnitude_clamping defaultConfig "[好感度 上升：7]".data (by decide)
      (by decide) (by decide) (by decide)).2.1 (by decide) (by decide),
   by decide, by decide, by decide⟩

/-- C5 counterexample: the claim says a tag with an increase/decrease
keyword but no integer magnitude is dropped and contributes nothing; in the
code `val = ... if num_match else 0` makes the magnitude 0, which
`max(decrease_min, min(decrease_max, 0))` lifts to `decrease_min`, so
`[好感度 降低]` parses to −1 under the default configuration, is appended
to `valid_changes`, and — being last — overrides the earlier `+2` tag. -/
theorem c5_counterexample :
    parseFavourTag defaultConfig "[好感度 降低]".data = some (-1) ∧
    validChanges defaultConfig "[好感度 上升：2][好感度 降低]".data = [2, -1] ∧
    handleLLMResponse defaultConfig "[好感度 上升：2][好感度 降低]".data =
      some (UpdateData.mk (-1) none) := by
  refine ⟨by decide, by decide, ?_⟩
  decide

/-- C5 (amended): a pattern match containing a direction keyword but no
digits is parsed with magnitude 0, which the clamp raises to the configured
minimum — it yields `-decrease_min` (resp. `+increase_min`) and does
contribute to the last-match-wins sequence; only a match with no direction
keyword at all is dropped (`temp_change is None`), contributing nothing,
and parsing is a total function, so no match can raise. -/
theorem c5_amended (cfg : Config) (m : List Char)
    (hi1 : 0 ≤ cfg.increase_min) (hi2 : cfg.increase_min ≤ cfg.increase_max)
    (hd1 : 0 ≤ cfg.decrease_min) (hd2 : cfg.decrease_min ≤ cfg.decrease_max)
    (hnum : firstDigitRun (normTag m) = none) :
    (containsAny (normTag m) ['降', '低'] = true →
      parseFavourTag cfg m = some (-cfg.decrease_min)) ∧
    (containsAny (normTag m) ['降', '低'] = false →
      containsAny (normTag m) ['上', '升'] = true →
      parseFavourTag cfg m = some cfg.increase_min) ∧
    (containsAny (normTag m) ['降', '低'] = false →
      containsAny (normTag m) ['上', '升'] = false →
      containsAny (normTag m) ['持', '平'] = false →
      parseFavourTag cfg m = none ∧
      ∀ t : List Char,
        validChanges cfg t = (favourMatches t).filterMap (parseFavourTag cfg)) := by
  have hval : numVal (normTag m) = 0 := by
    unfold numVal
    rw [hnum]
  have hdmin : max cfg.decrease_min (min cfg.decrease_max 0) = cfg.decrease_min := by
    rw [min_eq_right (le_trans hd1 hd2), max_eq_left hd1]
  have himin : max cfg.increase_min (min cfg.increase_max 0) = cfg.increase_min := by
    rw [min_eq_right (le_trans hi1 hi2), max_eq_left hi1]
  refine ⟨fun hdec => ?_, fun hdec hinc => ?_, fun hdec hinc hun => ⟨?_, fun t => rfl⟩⟩
  · simp [parseFavourTag, hdec, hval, hdmin]
  · simp [parseFavourTag, hdec, hinc, hval, himin]
  · simp [parseFavourTag, hdec, hinc, hun]

/-- C5 witness: `[好感度 降低]` (no digits) parses to `-decrease_min = -1`;
`[好感度？]` (no direction keyword) is dropped. -/
theorem c5_amended_witness :
    (parseFavourTag defaultConfig "[好感度 降低]".data =
      some (-defaultConfig.decrease_min)) ∧
    (parseFavourTag defaultConfig "[好感度？]".data = none ∧
      ∀ t : List Char, validChanges defaultConfig t =
        (favourMatches t).filterMap (parseFavourTag defaultConfig)) :=
  ⟨(c5_amended defaultConfig "[好感度 降低]".data (by decide) (by decide)
      (by decide) (by decide) (by decide)).1 (by decide),
   (c5_amended defaultConfig "[好感度？]".data (by decide) (by decide)
      (by decide) (by decide) (by decide)).2.2 (by decide) (by decide) (by decide)⟩

/-- The Bool range check is the pointwise Prop statement. -/
theorem favourInRange_iff (st : List FavourItem) :
    favourInRange st = true ↔
      ∀ it ∈ st, -100 ≤ it.favour ∧ it.favour ≤ 100 := by
  simp [favourInRange, List.all_eq_true, Bool.and_eq_true, decide_eq_true_iff]

/-- Reading the store preserves every favour value. -/
theorem readFavour_inRange (st : List FavourItem)
    (h : ∀ it ∈ st, -100 ≤ it.favour ∧ it.favour ≤ 100) :
    ∀ it ∈ readFavour st, -100 ≤ it.favour ∧ it.favour ≤ 100 := by
  intro it hit
  rcases List.mem_map.mp hit with ⟨it0, hmem, heq⟩
  rw [← heq]
  exact h it0 hmem

/-- `updateItems` preserves the range invariant: the only favour it writes
is clamped. -/
theorem updateItems_inRange (u : String) (s : Option String) (f : Option Int)
    (r : Option (List Char)) : ∀ (data d : List FavourItem),
    updateItems u s f r data = some d →
    (∀ it ∈ data, -100 ≤ it.favour ∧ it.favour ≤ 100) →
    ∀ it ∈ d, -100 ≤ it.favour ∧ it.favour ≤ 100 := by
  intro data
  induction data with
  | nil => intro d h; simp [updateItems] at h
  | cons hd tl ih =>
      intro d h hinv it hit
      unfold updateItems at h
      by_cases hm : matchesKey u s hd = true
      · rw [if_pos hm] at h
        rw [← Option.some.inj h] at hit
        rcases List.mem_cons.mp hit with heq | htl
        · subst heq
          cases f with
          | some v => exact clamp_mem v
          | none => exact hinv hd (List.mem_cons_self _ _)
        · exact hinv it (List.mem_cons_of_mem _ htl)
      · rw [if_neg hm] at h
        cases hrec : updateItems u s f r tl with
        | none => rw [hrec] at h; exact absurd h (by simp)
        | some tl2 =>
            rw [hrec] at h
            rw [← Option.some.inj h] at hit
            rcases List.mem_cons.mp hit with heq | htl
            · rw [heq]; exact hinv hd (List.mem_cons_self _ _)
            · exact ih tl2 hrec
                (fun x hx => hinv x (List.mem_cons_of_mem _ hx)) it htl

/-- `update_user_favour` preserves the range invariant: updates clamp, and
a freshly created record's favour is a clamped value or 0. -/
theorem updateUserFavour_inRange (st : List FavourItem) (userid : String)
    (s : Option String) (f : Option Int) (r : Option (List Char))
    (h : ∀ it ∈ st, -100 ≤ it.favour ∧ it.favour ≤ 100) :
    ∀ it ∈ updateUserFavour st userid s f r,
      -100 ≤ it.favour ∧ it.favour ≤ 100 := by
  unfold updateUserFavour
  by_cases hv : isValidUserid (pyStripS userid) = true
  · rw [if_pos hv]
    have hread := readFavour_inRange st h
    cases hu : updateItems (pyStripS userid) s f r (readFavour st) with
    | some d =>
        simpa [hu] using updateItems_inRange _ _ _ _ _ d hu hread
    | none =>
        simp only [hu]
        intro it hit
        rcases List.mem_append.mp hit with h1 | h2
        · exact hread it h1
        · rw [List.mem_singleton.mp h2]
          cases f with
          | some v => exact clamp_mem v
          | none => exact ⟨by norm_num, by norm_num⟩
  · rw [if_neg hv]
    exact h

/-- Every store mutator and the commit step preserve the range invariant. -/
theorem applyStoreOp_inRange (cfg : Config) (st : PluginState) (op : StoreOp)
    (h : ∀ it ∈ st.store, -100 ≤ it.favour ∧ it.favour ≤ 100) :
    ∀ it ∈ (applyStoreOp cfg st op).store,
      -100 ≤ it.favour ∧ it.favour ≤ 100 := by
  cases op with
  | update u s f r =>
      show ∀ it ∈ updateUserFavour st.store u s f r,
        -100 ≤ it.favour ∧ it.favour ≤ 100
      exact updateUserFavour_inRange _ _ _ _ _ h
  | delete u s =>
      show ∀ it ∈ deleteUserFavour st.store u s,
        -100 ≤ it.favour ∧ it.favour ≤ 100
      unfold deleteUserFavour
      by_cases hv : isValidUserid (pyStripS u) = true
      · rw [if_pos hv]
        intro it hit
        exact readFavour_inRange _ h it (List.mem_of_mem_filter hit)
      · rw [if_neg hv]; exact h
  | clearSession s =>
      show ∀ it ∈ clearSessionFavour st.store s,
        -100 ≤ it.favour ∧ it.favour ≤ 100
      unfold clearSessionFavour
      intro it hit
      exact readFavour_inRange _ h it (List.mem_of_mem_filter hit)
  | clearAll => intro it hit; exact absurd hit (List.not_mem_nil it)
  | commit now msgId sender session init =>
      show ∀ it ∈ (cleanupAndUpdateFavour cfg now st msgId sender session
        init).store, -100 ≤ it.favour ∧ it.favour ≤ 100
      unfold cleanupAndUpdateFavour
      cases lookupA st.pending msgId with
      | none => exact h
      | some ud =>
          dsimp only
          split
          · exact h
          · cases getUserFavour st.store sender session with
            | some cur =>
                dsimp only
                split <;> split
                · exact updateUserFavour_inRange _ _ _ _ _ h
                · exact h
                · exact updateUserFavour_inRange _ _ _ _ _ h
                · exact h
            | none => exact updateUserFavour_inRange _ _ _ _ _ h

/-- Sequences of operations preserve the range invariant. -/
theorem applyStoreOps_inRange (cfg : Config) :
    ∀ (ops : List StoreOp) (st : PluginState),
    (∀ it ∈ st.store, -100 ≤ it.favour ∧ it.favour ≤ 100) →
    ∀ it ∈ (applyStoreOps cfg st ops).store,
      -100 ≤ it.favour ∧ it.favour ≤ 100 := by
  intro ops
  induction ops with
  | nil => intro st h; exact h
  | cons op rest ih =>
      intro st h
      exact ih _ (applyStoreOp_inRange cfg st op h)

/-- Pointwise form of the SQL-store range check. -/
theorem dbInRange_iff (lo hi : Int) (recs : List DBRecord) :
    dbInRange lo hi recs = true ↔
      ∀ r ∈ recs, lo ≤ r.favour ∧ r.favour ≤ hi := by
  simp [dbInRange, List.all_eq_true, Bool.and_eq_true, decide_eq_true_iff]

/-- `dbUpdateFirst` preserves the configured range. -/
theorem dbUpdateFirst_inRange (lo hi : Int) (hlohi : lo ≤ hi) (u sid : String)
    (f : Option Int) (r : Option (List Char)) (iu : Option Bool) :
    ∀ recs : List DBRecord,
    (∀ x ∈ recs, lo ≤ x.favour ∧ x.favour ≤ hi) →
    ∀ x ∈ dbUpdateFirst lo hi u sid f r iu recs,
      lo ≤ x.favour ∧ x.favour ≤ hi := by
  intro recs
  induction recs with
  | nil => intro _ x hx; exact absurd hx (List.not_mem_nil x)
  | cons hd tl ih =>
      intro hinv x hx
      unfold dbUpdateFirst at hx
      by_cases hm : (hd.user_id == u && hd.session_id == sid) = true
      · rw [if_pos hm] at hx
        rcases List.mem_cons.mp hx with heq | htl
        · subst heq
          cases f with
          | some v => exact clampB_mem lo hi v hlohi
          | none => exact hinv hd (List.mem_cons_self _ _)
        · exact hinv x (List.mem_cons_of_mem _ htl)
      · rw [if_neg hm] at hx
        rcases List.mem_cons.mp hx with heq | htl
        · rw [heq]; exact hinv hd (List.mem_cons_self _ _)
        · exact ih (fun y hy => hinv y (List.mem_cons_of_mem _ hy)) x htl

/-- `FavourDBManager.update_favour` preserves the configured range for
bounds with `lo ≤ 0 ≤ hi` (the record created when no favour is supplied
is initialized to 0). -/
theorem dbUpdateFavour_inRange (lo hi : Int) (hlo : lo ≤ 0) (hhi : 0 ≤ hi)
    (recs : List DBRecord) (u : String) (s : Option String) (f : Option Int)
    (r : Option (List Char)) (iu : Option Bool)
    (h : ∀ x ∈ recs, lo ≤ x.favour ∧ x.favour ≤ hi) :
    ∀ x ∈ dbUpdateFavour lo hi recs u s f r iu,
      lo ≤ x.favour ∧ x.favour ≤ hi := by
  have hlohi : lo ≤ hi := le_trans hlo hhi
  unfold dbUpdateFavour
  by_cases hv : isValidUserid u = true
  · simp only [hv, Bool.not_true, Bool.false_eq_true, if_false]
    cases dbFind recs u _ with
    | none =>
        intro x hx
        rcases List.mem_append.mp hx with h1 | h2
        · exact h x h1
        · rw [List.mem_singleton.mp h2]
          cases f with
          | some v => exact clampB_mem lo hi v hlohi
          | none => exact ⟨hlo, hhi⟩
    | some _ => exact dbUpdateFirst_inRange lo hi hlohi _ _ _ _ _ recs h
  · simp only [Bool.not_eq_true] at hv
    simp only [hv, Bool.not_false, if_true]
    exact h

/-- Sequences of `update_favour` calls preserve the configured range. -/
theorem dbApplyOps_inRange (lo hi : Int) (hlo : lo ≤ 0) (hhi : 0 ≤ hi) :
    ∀ ops recs, (∀ x ∈ recs, lo ≤ x.favour ∧ x.favour ≤ hi) →
    ∀ x ∈ dbApplyOps lo hi recs ops, lo ≤ x.favour ∧ x.favour ≤ hi := by
  intro ops
  induction ops with
  | nil => intro recs h; exact h
  | cons op rest ih =>
      intro recs h
      exact ih _ (dbUpdateFavour_inRange lo hi hlo hhi recs op.1 op.2.1
        op.2.2.1 op.2.2.2.1 op.2.2.2.2 h)

/-- C3: starting from any in-range store, every sequence of reconciliations
and admin writes (updates, deletes, clears and delivery-time commits) keeps
every stored favour in −100..100 — writes saturate at the bounds and an
out-of-range value is never stored; likewise the SQL backend's
`update_favour` keeps every row in its configured `[min_val, max_val]`
(bounds that, like the defaults −100..100, surround 0). -/
theorem c3_store_clamping (cfg : Config) (st : PluginState)
    (ops : List StoreOp) (h : favourInRange st.store = true)
    (lo hi : Int) (recs : List DBRecord)
    (dbops : List (String × Option String × Option Int × Option (List Char) × Option Bool))
    (hlo : lo ≤ 0) (hhi : 0 ≤ hi) (hdb : dbInRange lo hi recs = true) :
    favourInRange (applyStoreOps cfg st ops).store = true ∧
    dbInRange lo hi (dbApplyOps lo hi recs dbops) = true := by
  constructor
  · exact (favourInRange_iff _).mpr
      (applyStoreOps_inRange cfg ops st ((favourInRange_iff _).mp h))
  · exact (dbInRange_iff _ _ _).mpr
      (dbApplyOps_inRange lo hi hlo hhi dbops recs ((dbInRange_iff _ _ _).mp hdb))

/-- C3 witness: a concrete run — an admin write of 250 saturates to 100, a
commit applying +2 to a fresh envoy-style record stores 52, and the SQL
store clamps an update of −250 to −100; everything stays in range. -/
theorem c3_witness :
    favourInRange (applyStoreOps defaultConfig
      (PluginState.mk [] [("m", UpdateData.mk 2 none)] [])
      [StoreOp.update "10001" (some "s") (some 250) none,
       StoreOp.commit 0 "m" "10002" (some "s") 50,
       StoreOp.delete "10001" (some "s")]).store = true ∧
    dbInRange (-100) 100 (dbApplyOps (-100) 100 []
      [("10003", some "s", some (-250), none, none)]) = true ∧
    (applyStoreOps defaultConfig
      (PluginState.mk [] [("m", UpdateData.mk 2 none)] [])
      [StoreOp.update "10001" (some "s") (some 250) none,
       StoreOp.commit 0 "m" "10002" (some "s") 50]).store =
      [FavourItem.mk "10001" 100 (some "s") [] false,
       FavourItem.mk "10002" 52 (some "s") [] false] :=
  ⟨(c3_store_clamping defaultConfig _ _ (by decide) (-100) 100 [] []
      (by norm_num) (by norm_num) (by decide)).1,
   (c3_store_clamping defaultConfig (PluginState.mk [] [] []) [] (by decide)
      (-100) 100 [] [("10003", some "s", some (-250), none, none)]
      (by norm_num) (by norm_num) (by decide)).2,
   by decide⟩

/-- Step equation of `reFindAll` on positive fuel. -/
theorem reFindAll_succ (mf : Nat) (re : Re) (fuel : Nat) (s : List Char) :
    reFindAll mf re (fuel + 1) s =
      (match reMatchAt mf re s with
       | none =>
           match s with
           | [] => []
           | _ :: rest => reFindAll mf re fuel rest
       | some (l, caps) =>
           if l = 0 then
             ([], caps) ::
               (match s with
                | [] => []
                | _ :: rest => reFindAll mf re fuel rest)
           else (s.take l, caps) :: reFindAll mf re fuel (s.drop l)) := rfl

/-- Step equation of `reSub` on positive fuel. -/
theorem reSub_succ (mf : Nat) (re : Re) (fuel : Nat) (s : List Char) :
    reSub mf re (fuel + 1) s =
      (match reMatchAt mf re s with
       | none =>
           match s with
           | [] => []
           | c :: rest => c :: reSub mf re fuel rest
       | some (l, _) =>
           if l = 0 then
             match s with
             | [] => []
             | c :: rest => c :: reSub mf re fuel rest
           else reSub mf re fuel (s.drop l)) := rfl

/-- If `findall` reports no match anywhere, `sub` leaves the text
unchanged. -/
theorem reSub_of_findAll_nil (mf : Nat) (re : Re) :
    ∀ (fuel : Nat) (s : List Char),
    reFindAll mf re fuel s = [] → reSub mf re fuel s = s := by
  intro fuel
  induction fuel with
  | zero => intro s _; rfl
  | succ n ih =>
      intro s h
      rw [reFindAll_succ] at h
      rw [reSub_succ]
      cases hm : reMatchAt mf re s with
      | none =>
          rw [hm] at h
          cases s with
          | nil => rfl
          | cons c rest =>
              dsimp only at h ⊢
              rw [ih rest h]
      | some lc =>
          rw [hm] at h
          obtain ⟨l, caps⟩ := lc
          dsimp only at h
          by_cases hl : l = 0
          · rw [if_pos hl] at h
            exact absurd h (by simp)
          · rw [if_neg hl] at h
            exact absurd h (by simp)

/-- C6 counterexample: stripping is not idempotent.  On
`[x[好感]好感]` the only pattern match is the inner `[好感]` (the outer
bracket cannot reach a keyword, because the pre-keyword character class
excludes brackets); removing it splices the remaining fragments into
`[x好感]`, which is itself a syntactically valid tag, so a second strip
erases everything: `strip(strip(t)) = "" ≠ "[x好感]" = strip(t)`. -/
theorem c6_counterexample :
    stripTags "[x[好感]好感]".data = "[x好感]".data ∧
    stripTags (stripTags "[x[好感]好感]".data) = [] ∧
    stripTags (stripTags "[x[好感]好感]".data) ≠
      stripTags "[x[好感]好感]".data := by
  refine ⟨by decide, by decide, by decide⟩

/-- C6 (amended): the strip pass removes, left to right, every
non-overlapping leftmost span matched by either pattern and trims
surrounding whitespace; on text with no pattern match at all — non-tag
bracketed text such as `[laughing]` included — it only trims whitespace;
but stripping is not idempotent in general, because removing a span can
splice the surrounding fragments into a new syntactically valid tag. -/
theorem c6_strip (t : List Char)
    (h1 : favourMatches t = []) (h2 : relMatches t = []) :
    stripTags t = pyStrip t ∧
    stripTags "a[好感度 上升：2]b".data = "ab".data ∧
    stripTags "c[用户申请确认关系朋友:true]d".data = "cd".data := by
  refine ⟨?_, by decide, by decide⟩
  have hf : reFindAll (matchFuel t) favourRe (t.length + 1) t = [] := by
    unfold favourMatches at h1
    exact List.map_eq_nil_iff.mp h1
  have hr : reFindAll (matchFuel t) relationshipRe (t.length + 1) t = [] := by
    unfold relMatches at h2
    exact List.map_eq_nil_iff.mp h2
  have hsub1 : favourSub t = t := reSub_of_findAll_nil _ _ _ _ hf
  have hsub2 : relSub t = t := reSub_of_findAll_nil _ _ _ _ hr
  unfold stripTags
  rw [hsub1, hsub2]

/-- C6 witness: `e[laughing]f` contains no tag, so stripping leaves it
untouched (its whitespace trim is also the identity). -/
theorem c6_witness :
    (stripTags "e[laughing]f".data = pyStrip "e[laughing]f".data ∧
     stripTags "a[好感度 上升：2]b".data = "ab".data ∧
     stripTags "c[用户申请确认关系朋友:true]d".data = "cd".data) ∧
    pyStrip "e[laughing]f".data = "e[laughing]f".data :=
  ⟨c6_strip "e[laughing]f".data (by decide) (by decide), by decide⟩

/-- C8: the per-user cold-violence state machine.  Starting Inactive (no
entry for the sender), the commit step arms Active with
`expires_at = now + duration` exactly when the new clamped value is at or
below the configured threshold and the applied delta was negative; while
Active with `now < expires_at`, the request hook intercepts with the
remaining time — the model call is never reached; on first access with
`now ≥ expires_at` the entry is lazily deleted and the model call proceeds
normally. -/
theorem c8_cold_violence (cfg : Config) (now : Nat) (st : PluginState)
    (msgId sender : String) (session : Option String) (init : Int)
    (ud : UpdateData)
    (hpop : lookupA st.pending msgId = some ud)
    (hsig : ¬(ud.favour_change = 0 ∧ ud.relationship_update = none))
    (hcold : lookupA st.coldUsers sender = none) :
    (lookupA (cleanupAndUpdateFavour cfg now st msgId sender session
        init).coldUsers sender =
      (if clamp ((match getUserFavour st.store sender session with
            | some cur => cur.favour
            | none => init) + ud.favour_change) ≤ cfg.cold_violence_threshold
          ∧ ud.favour_change < 0 then
        some (now + 60 * cfg.cold_violence_duration_minutes) else none)) ∧
    (∀ (st2 : PluginState) (expiry now2 : Nat),
      lookupA st2.coldUsers sender = some expiry →
      (now2 < expiry →
        injectFavourPrompt now2 st2 sender =
          (st2, InjectOutcome.intercepted (expiry - now2))) ∧
      (expiry ≤ now2 →
        injectFavourPrompt now2 st2 sender =
          ({ st2 with coldUsers := eraseA st2.coldUsers sender },
            InjectOutcome.proceed))) := by
  constructor
  · unfold cleanupAndUpdateFavour
    rw [hpop]
    dsimp only
    rw [if_neg hsig]
    cases hg : getUserFavour st.store sender session with
    | some cur =>
        dsimp only
        split
        · exact lookupA_insertA_self _ _ _
        · exact hcold
    | none =>
        dsimp only
        split
        · exact lookupA_insertA_self _ _ _
        · exact hcold
  · intro st2 expiry now2 hl
    constructor
    · intro hlt
      unfold injectFavourPrompt
      rw [hl]
      dsimp only
      rw [if_pos hlt]
    · intro hge
      unfold injectFavourPrompt
      rw [hl]
      dsimp only
      rw [if_neg (not_lt.mpr hge)]

/-- C8 witness: the spec's scenario — threshold −50, duration 60 minutes; a
−10 reconciliation takes the value from −45 to −55, arming the timer with
expiry 3600 s; a request 600 s later is intercepted with 3000 s remaining;
a request at 3600 s proceeds and clears the entry. -/
theorem c8_witness :
    lookupA (cleanupAndUpdateFavour defaultConfig 0
        (PluginState.mk [FavourItem.mk "u" (-45) (some "s") [] false]
          [("m", UpdateData.mk (-10) none)] [])
        "m" "u" (some "s") 0).coldUsers "u" = some 3600 ∧
    injectFavourPrompt 600 (PluginState.mk [] [] [("u", 3600)]) "u" =
      (PluginState.mk [] [] [("u", 3600)], InjectOutcome.intercepted 3000) ∧
    injectFavourPrompt 3600 (PluginState.mk [] [] [("u", 3600)]) "u" =
      (PluginState.mk [] [] [], InjectOutcome.proceed) :=
  ⟨((c8_cold_violence defaultConfig 0
      (PluginState.mk [FavourItem.mk "u" (-45) (some "s") [] false]
        [("m", UpdateData.mk (-10) none)] [])
      "m" "u" (some "s") 0 (UpdateData.mk (-10) none)
      (by decide) (by decide) (by decide)).1).trans (by decide),
   ((c8_cold_violence defaultConfig 0
      (PluginState.mk [FavourItem.mk "u" (-45) (some "s") [] false]
        [("m", UpdateData.mk (-10) none)] [])
      "m" "u" (some "s") 0 (UpdateData.mk (-10) none)
      (by decide) (by decide) (by decide)).2
      (PluginState.mk [] [] [("u", 3600)]) 3600 600 (by decide)).1
      (by norm_num),
   ((c8_cold_violence defaultConfig 0
      (PluginState.mk [FavourItem.mk "u" (-45) (some "s") [] false]
        [("m", UpdateData.mk (-10) none)] [])
      "m" "u" (some "s") 0 (UpdateData.mk (-10) none)
      (by decide) (by decide) (by decide)).2
      (PluginState.mk [] [] [("u", 3600)]) 3600 3600 (by decide)).2
      (by norm_num)⟩

/-- C9 counterexample: the claim ties every lazy record creation — the
first admin command included — to the priority chain.  But the `修改好感度`
command creates the record with the admin-supplied value: for a plain user
whose chain value is the plain default 0, the command stores 30, not 0. -/
theorem c9_counterexample :
    getInitialFavour defaultConfig [] "10001" permMEMBER false = 0 ∧
    modifyFavourCommand ["9"] 50 (MsgEvent.mk "9" (some "123") true none)
      [] "10001" (some "s") 30 =
      [FavourItem.mk "10001" 30 (some "s") [] false] ∧
    (30 : Int) ≠ 0 := by
  refine ⟨by decide, ?_, by decide⟩
  decide

/-- C9 (amended): only the first model-response reconciliation seeds the
record from the priority chain: in per-conversation mode an existing
global-scope value is returned exactly as stored (with no re-clamping —
though values this program itself wrote to the global store are clamped),
else owners-and-above and envoys get the admin default and everyone else
the plain default, clamped into −100..100; a record created by an admin
command instead stores the admin-supplied value (clamped), not the chain
value. -/
theorem c9_initial_value (cfg : Config) (gm : List (String × Int))
    (userId : String) (userLevel : Int) (isEnvoy : Bool) :
    (cfg.is_global_favour = false → ∀ g : Int, lookupA gm userId = some g →
      getInitialFavour cfg gm userId userLevel isEnvoy = g) ∧
    (cfg.is_global_favour = true ∨ lookupA gm userId = none →
      getInitialFavour cfg gm userId userLevel isEnvoy =
        clamp (if userLevel ≥ permOWNER ∨ isEnvoy = true then
          cfg.admin_default_favour else cfg.default_favour) ∧
      -100 ≤ getInitialFavour cfg gm userId userLevel isEnvoy ∧
      getInitialFavour cfg gm userId userLevel isEnvoy ≤ 100) ∧
    (∀ (u : String) (s : Option String) (v : Int),
      updateUserFavour [] u s (some v) none =
        (if isValidUserid (pyStripS u) = true then
          [FavourItem.mk (pyStripS u) (clamp v) s [] false] else [])) ∧
    (∀ (gm2 : List (String × Int)) (u : String) (v : Int),
      isValidUserid u = true →
      lookupA (updateGlobalFavour gm2 u v) u = some (clamp v)) := by
  refine ⟨?_, ?_, ?_, ?_⟩
  · intro hmode g hg
    unfold getInitialFavour
    rw [hmode]
    dsimp only
    rw [hg]
    rfl
  · intro hcase
    have hbranch : getInitialFavour cfg gm userId userLevel isEnvoy =
        clamp (if userLevel ≥ permOWNER ∨ isEnvoy = true then
          cfg.admin_default_favour else cfg.default_favour) := by
      unfold getInitialFavour
      rcases hcase with hglob | hnone
      · rw [hglob]
        rfl
      · cases hmode : cfg.is_global_favour with
        | true => rfl
        | false =>
            dsimp only
            rw [hnone]
            rfl
    refine ⟨hbranch, ?_, ?_⟩
    · rw [hbranch]; exact (clamp_mem _).1
    · rw [hbranch]; exact (clamp_mem _).2
  · intro u s v
    unfold updateUserFavour
    by_cases hv : isValidUserid (pyStripS u) = true
    · rw [if_pos hv, if_pos hv]
      rfl
    · rw [if_neg hv, if_neg hv]
  · intro gm2 u v hvalid
    unfold updateGlobalFavour lookupA
    rw [if_pos hvalid]
    simp [List.find?]

/-- C9 witness: per-conversation mode with a (hand-edited) global value 150
returns 150 unclamped; an envoy with no global value starts from the
admin default 50; the admin-command creation path stores the supplied value
30 clamped, and a global write of 250 stores 100. -/
theorem c9_witness :
    getInitialFavour defaultConfig [("10001", 150)] "10001" permMEMBER
      false = 150 ∧
    getInitialFavour defaultConfig [] "10002" permMEMBER true =
      clamp (if permMEMBER ≥ permOWNER ∨ true = true then
        defaultConfig.admin_default_favour else defaultConfig.default_favour) ∧
    updateUserFavour [] "10003" (some "s") (some 30) none =
      (if isValidUserid (pyStripS "10003") = true then
        [FavourItem.mk (pyStripS "10003") (clamp 30) (some "s") [] false]
       else []) ∧
    lookupA (updateGlobalFavour [] "10004" 250) "10004" = some (clamp 250) :=
  ⟨(c9_initial_value defaultConfig [("10001", 150)] "10001" permMEMBER
      false).1 (by decide) 150 (by decide),
   ((c9_initial_value defaultConfig [] "10002" permMEMBER true).2.1
      (Or.inr (by decide))).1,
   (c9_initial_value defaultConfig [] "10002" permMEMBER true).2.2.1
      "10003" (some "s") 30,
   (c9_initial_value defaultConfig [] "10002" permMEMBER true).2.2.2
      [] "10004" 250 (by decide)⟩

/-- A record returned by `get_user_favour` went through `read_favour`, so
its `is_unique` key has been dropped (false). -/
theorem getUserFavour_is_unique (st : List FavourItem) (u : String)
    (s : Option String) (cur : FavourItem)
    (h : getUserFavour st u s = some cur) : cur.is_unique = false := by
  unfold getUserFavour at h
  have hmem := List.mem_of_find?_eq_some h
  rcases List.mem_map.mp hmem with ⟨it0, _, heq⟩
  rw [← heq]

/-- Every record of a read store has `is_unique = false`. -/
theorem readFavour_unique (st : List FavourItem) :
    ∀ x ∈ readFavour st, x.is_unique = false := by
  intro x hx
  rcases List.mem_map.mp hx with ⟨it0, _, heq⟩
  rw [← heq]

/-- When a record with the key exists, `updateItems` succeeds and the first
matching record of the result carries the supplied relationship, with
`is_unique` untouched (false throughout a normalized store). -/
theorem updateItems_sets_rel (u : String) (s : Option String) (f : Option Int)
    (newRel : List Char) : ∀ data : List FavourItem,
    (∃ it, data.find? (matchesKey u s) = some it) →
    (∀ x ∈ data, x.is_unique = false) →
    ∃ d it2, updateItems u s f (some newRel) data = some d ∧
      d.find? (matchesKey u s) = some it2 ∧
      it2.relationship = newRel ∧ it2.is_unique = false := by
  intro data
  induction data with
  | nil =>
      intro hex _
      rcases hex with ⟨it, h⟩
      simp [List.find?] at h
  | cons hd tl ih =>
      intro hex hnorm
      by_cases hm : matchesKey u s hd = true
      · refine ⟨{ hd with
            favour := match f with | some v => clamp v | none => hd.favour,
            relationship := newRel } :: tl,
          { hd with
            favour := match f with | some v => clamp v | none => hd.favour,
            relationship := newRel }, ?_, ?_, rfl, ?_⟩
        · unfold updateItems
          rw [if_pos hm]
          cases f <;> rfl
        · exact List.find?_cons_of_pos _ hm
        · exact hnorm hd (List.mem_cons_self _ _)
      · rcases hex with ⟨it, h⟩
        rw [List.find?_cons_of_neg _ hm] at h
        obtain ⟨d, it2, hupd, hfind, hrel, huniq⟩ :=
          ih ⟨it, h⟩ (fun x hx => hnorm x (List.mem_cons_of_mem _ hx))
        refine ⟨hd :: d, it2, ?_, ?_, hrel, huniq⟩
        · unfold updateItems
          rw [if_neg hm, hupd]
        · rw [List.find?_cons_of_neg _ hm]
          exact hfind

/-- C2 counterexample: a record with favour −5 and the standing relationship
`恋人`, and a parked update `(0, none)` — exactly what `handle_llm_response`
parks for a response whose only affinity tag has no direction keyword, such
as `[好感度]`.  The reconciliation's new clamped value is −5 < 0 and the
prior relationship is non-empty, yet the commit short-circuits on
`change_n == 0 and relationship_update is None` before reading the record,
so the stored relationship survives instead of being cleared. -/
theorem c2_counterexample :
    handleLLMResponse defaultConfig "[好感度]".data =
      some (UpdateData.mk 0 none) ∧
    clamp ((-5) + 0) < 0 ∧
    "恋人".data ≠ [] ∧
    findRecord (cleanupAndUpdateFavour defaultConfig 0
        (PluginState.mk [FavourItem.mk "1" (-5) (some "s") "恋人".data false]
          [("m", UpdateData.mk 0 none)] [])
        "m" "1" (some "s") 0).store "1" (some "s") =
      some (FavourItem.mk "1" (-5) (some "s") "恋人".data false) := by
  refine ⟨?_, by decide, by decide, by decide⟩
  decide

/-- C2 (amended): for a record whose prior relationship is non-empty, a
reconciliation that carries an actual signal (a non-zero delta or a
relationship event) and whose new clamped value is below 0 always stores an
empty relationship and `is_unique = false`, even when it simultaneously
carried a relationship grant; the no-signal `(0, none)` finalization
short-circuits before reading the record and leaves a standing relationship
untouched (see the counterexample). -/
theorem c2_revocation (cfg : Config) (now : Nat) (st : PluginState)
    (msgId sender : String) (session : Option String) (init : Int)
    (ud : UpdateData) (cur : FavourItem)
    (hpop : lookupA st.pending msgId = some ud)
    (hsig : ¬(ud.favour_change = 0 ∧ ud.relationship_update = none))
    (hcur : getUserFavour st.store sender session = some cur)
    (hrel : cur.relationship ≠ [])
    (hneg : clamp (cur.favour + ud.favour_change) < 0)
    (hvalid : isValidUserid sender = true)
    (hstrip : pyStripS sender = sender) :
    ∃ it2, findRecord (cleanupAndUpdateFavour cfg now st msgId sender session
        init).store sender session = some it2 ∧
      it2.relationship = [] ∧ it2.is_unique = false := by
  unfold cleanupAndUpdateFavour
  rw [hpop]
  dsimp only
  rw [if_neg hsig]
  rw [show getUserFavour st.store sender session = some cur from hcur]
  dsimp only
  have hc : (clamp (cur.favour + ud.favour_change) < 0 ∧
      cur.relationship ≠ []) = True := eq_true ⟨hneg, hrel⟩
  simp only [hc, ite_true]
  have hc2 : (([] : List Char) ≠ cur.relationship) = True :=
    eq_true (Ne.symm hrel)
  simp only [hc2, or_true, ite_true]
  have hex : ∃ it, (readFavour st.store).find? (matchesKey sender session) =
      some it := ⟨cur, hcur⟩
  obtain ⟨d, it2, hupd, hfind, hrelEq, huniq⟩ :=
    updateItems_sets_rel sender session
      (if clamp (cur.favour + ud.favour_change) ≠ cur.favour then
        some (clamp (cur.favour + ud.favour_change)) else none)
      [] (readFavour st.store) hex (readFavour_unique st.store)
  refine ⟨it2, ?_, hrelEq, huniq⟩
  unfold updateUserFavour
  rw [hstrip]
  rw [if_pos hvalid]
  dsimp only
  rw [hupd]
  exact hfind

/-- C2 witness for the amended revocation: favour 3, relationship `友`,
delta −5 with a simultaneous relationship grant `恋` — the new value −2 is
negative, so the stored record ends with an empty relationship and
`is_unique = false`. -/
theorem c2_witness :
    ∃ it2, findRecord (cleanupAndUpdateFavour defaultConfig 0
        (PluginState.mk [FavourItem.mk "1" 3 (some "s") "友".data false]
          [("m", UpdateData.mk (-5) (some "恋".data))] [])
        "m" "1" (some "s") 0).store "1" (some "s") = some it2 ∧
      it2.relationship = [] ∧ it2.is_unique = false :=
  c2_revocation defaultConfig 0
    (PluginState.mk [FavourItem.mk "1" 3 (some "s") "友".data false]
      [("m", UpdateData.mk (-5) (some "恋".data))] [])
    "m" "1" (some "s") 0 (UpdateData.mk (-5) (some "恋".data))
    (FavourItem.mk "1" 3 (some "s") "友".data false)
    (by decide) (by decide) (by decide) (by decide) (by decide) (by decide)
    (by decide)

/-- C1: among the pattern matches in document order, the last one that
parses to a valid change (the grammar requires a direction keyword)
determines the parked `favour_change` — not the sum and not an earlier
tag — and the last relationship tuple alone determines the relationship
outcome, applied only when its boolean is `true` (case-insensitively) and
its name is non-empty after trimming. -/
theorem c1_last_tag_wins (cfg : Config) (t : List Char) :
    (∀ v : Int, (validChanges cfg t).getLast? = some v →
      ∃ ud : UpdateData, handleLLMResponse cfg t = some ud ∧
        ud.favour_change = v) ∧
    (∀ n b : List Char, (relMatches t).getLast? = some (n, b) →
      relationshipUpdateOf t =
        (if b.map Char.toLower = "true".data ∧ pyStrip n ≠ [] then
          some (pyStrip n) else none)) := by
  constructor
  · intro v hv
    have hne : favourMatches t ≠ [] := by
      intro hnil
      rw [show validChanges cfg t = [] by
            unfold validChanges
            rw [hnil]
            rfl] at hv
      simp at hv
    refine ⟨⟨v, relationshipUpdateOf t⟩, ?_, rfl⟩
    unfold handleLLMResponse
    rw [hv]
    simp [hne]
  · intro n b hb
    unfold relationshipUpdateOf
    rw [hb]

/-- C1 witness: with `[好感度 上升：2]` followed by `[好感度 降低：3]`, the
valid-change sequence is `[2, -3]` and the parked delta is the decrease −3
(not the first tag's +2 and not the sum −1); with two relationship tags
the last one (`b: true`) wins. -/
theorem c1_witness :
    (∃ ud : UpdateData,
      handleLLMResponse defaultConfig "[好感度 上升：2][好感度 降低：3]".data =
        some ud ∧ ud.favour_change = -3) ∧
    validChanges defaultConfig "[好感度 上升：2][好感度 降低：3]".data = [2, -3] ∧
    relationshipUpdateOf
      "[用户申请确认关系a:false][用户申请确认关系b:true]".data =
      (if "true".data.map Char.toLower = "true".data ∧ pyStrip "b".data ≠ [] then
        some (pyStrip "b".data) else none) :=
  ⟨(c1_last_tag_wins defaultConfig "[好感度 上升：2][好感度 降低：3]".data).1
      (-3) (by decide),
   by decide,
   (c1_last_tag_wins defaultConfig
      "[用户申请确认关系a:false][用户申请确认关系b:true]".data).2
      "b".data "true".data (by decide)⟩

end FavourUltra
